import Mathlib

/-!
Verification of the weaviate `graphqlapi` resolution layer.

The Go source (`graphqlapi` package) builds a GraphQL schema over three
entity kinds (Thing, Action, Key), resolves cross references through
`resolveCrossRef`, and reprojects parsed selection subtrees back to query
text with `GetSubQuery`.  This file is a shallow embedding of that layer:
each definition mirrors one Go function or data shape, and the theorems
settle the specified properties against those definitions.
-/

namespace Weaviate

/--
Model of a parsed GraphQL selection list (`[]ast.Selection`, where every
selection is an `*ast.Field` with a `Name` and an optional `SelectionSet`).
`nil` is the empty list; `leaf name rest` is a field whose `SelectionSet`
is the Go nil pointer, followed by the remaining selections; `node name
subs rest` is a field carrying a selection set with selections `subs`,
followed by the remaining selections.
-/
inductive Sels where
  | nil : Sels
  | leaf (name : String) (rest : Sels) : Sels
  | node (name : String) (subs : Sels) (rest : Sels) : Sels
deriving DecidableEq

/--
Embedding of the Go function `GetSubQuery` (source lines 570-586).  The Go
loop appends, for each selection, a space and the field name, and when the
field has a non-nil `SelectionSet` additionally appends a brace-delimited
block around the recursive reprojection of its selections.
-/
def GetSubQuery : Sels → String
  | .nil => ""
  | .leaf n rest => " " ++ n ++ GetSubQuery rest
  | .node n subs rest =>
      " " ++ n ++ " \x7b " ++ GetSubQuery subs ++ " \x7d " ++ GetSubQuery rest

/--
Whitespace tokenizer: splits a character list on spaces, accumulating the
current word in `acc`.  Used to compare reprojected strings up to
whitespace tolerance and to feed the field-list parser.
-/
def wordsAux : List Char → List Char → List String
  | acc, [] => if acc.isEmpty then [] else [String.mk acc]
  | acc, c :: cs =>
      if c = ' ' then
        if acc.isEmpty then wordsAux [] cs else String.mk acc :: wordsAux [] cs
      else
        wordsAux (acc ++ [c]) cs

/-- Tokens of a string: its maximal space-free words in order. -/
def gqlWords (s : String) : List String :=
  wordsAux [] s.data

/--
The token stream a selection list denotes in the field-selection grammar:
each field name in depth-first, left-to-right order, a nested selection
rendered as a brace-delimited block right after its field name.
-/
def tokList : Sels → List String
  | .nil => []
  | .leaf n rest => n :: tokList rest
  | .node n subs rest => n :: "\x7b" :: (tokList subs ++ "\x7d" :: tokList rest)

/--
Well-formedness of a field name as produced by parsing a syntactically
valid field list: non-empty, no whitespace, and not a brace token.
-/
def wfName (n : String) : Bool :=
  !n.data.isEmpty && n.data.all (fun c => !(c = ' ')) &&
    !(n = "\x7b") && !(n = "\x7d")

/-- Well-formedness of every field name in a selection list. -/
def wfSels : Sels → Bool
  | .nil => true
  | .leaf n rest => wfName n && wfSels rest
  | .node n subs rest => wfName n && wfSels subs && wfSels rest

/--
Modelled from the spec: the query-language field-list parser is part of
the external query engine (§1 puts parsing out of scope; §4.3 and P2 refer
to "re-parsing" a rendered field list).  This recursive-descent parser
over the token stream consumes fields until the enclosing block closes:
a name followed by a brace-delimited block yields a nested selection, a
bare name a leaf.  `fuel` bounds the recursion depth; the top-level entry
`reparse` supplies enough fuel for its token list.
-/
def parseFields : Nat → List String → Option (Sels × List String)
  | 0, _ => none
  | _ + 1, [] => some (.nil, [])
  | fuel + 1, t :: rest =>
      if t = "\x7d" then
        some (.nil, t :: rest)
      else if rest.head? = some "\x7b" then
        match parseFields fuel rest.tail with
        | some (subs, rem) =>
            if rem.head? = some "\x7d" then
              match parseFields fuel rem.tail with
              | some (more, rem3) => some (.node t subs more, rem3)
              | none => none
            else none
        | none => none
      else
        match parseFields fuel rest with
        | some (more, rem) => some (.leaf t more, rem)
        | none => none

/-- Number of `parseFields` steps needed to consume a selection list. -/
def pfuel : Sels → Nat
  | .nil => 1
  | .leaf _ rest => 1 + pfuel rest
  | .node _ subs rest => 1 + pfuel subs + pfuel rest

/--
Modelled from the spec: re-parse a rendered field list (tokenize, then
parse a complete field list with sufficient fuel; fails when tokens
remain).
-/
def reparse (s : String) : Option Sels :=
  match parseFields ((gqlWords s).length + 1) (gqlWords s) with
  | some (sels, []) => some sels
  | _ => none

/-- String append acts as list append on the underlying character data. -/
theorem strData_append (s t : String) : (s ++ t).data = s.data ++ t.data := by
  cases s
  cases t
  rfl

theorem lbracePad_cons : (" \x7b " : String).data = ' ' :: ("\x7b " : String).data := rfl

theorem rbracePad_cons : (" \x7d " : String).data = ' ' :: ("\x7d " : String).data := rfl

/-- Tokenizing a leading space-brace-space chunk emits the open-brace token. -/
theorem words_lbrace_chunk (X : List Char) :
    wordsAux [] ((" \x7b " : String).data ++ X) = "\x7b" :: wordsAux [] X := by
  simp [wordsAux]

/-- Tokenizing a leading space-brace-space chunk emits the close-brace token. -/
theorem words_rbrace_chunk (X : List Char) :
    wordsAux [] ((" \x7d " : String).data ++ X) = "\x7d" :: wordsAux [] X := by
  simp [wordsAux]

/-- A leading space is skipped by the tokenizer. -/
theorem words_space_chunk (X : List Char) :
    wordsAux [] ((" " : String).data ++ X) = wordsAux [] X := by
  simp [wordsAux]

/-- Space-free characters are absorbed into the pending word. -/
theorem wordsAux_nospace (l : List Char) (h : ∀ c ∈ l, ¬(c = ' ')) :
    ∀ acc X, wordsAux acc (l ++ X) = wordsAux (acc ++ l) X := by
  induction l with
  | nil => intro acc X; simp
  | cons c l ih =>
      intro acc X
      have hc : ¬(c = ' ') := h c (by simp)
      show wordsAux acc (c :: (l ++ X)) = _
      rw [wordsAux, if_neg hc, ih (fun d hd => h d (by simp [hd])) (acc ++ [c]) X]
      simp

/-- A space-free non-empty word followed by a space (or the end) is one token. -/
theorem flush_word (n : String) (hne : n.data ≠ []) (hns : ∀ c ∈ n.data, ¬(c = ' '))
    (Z : List Char) (hZ : Z = [] ∨ ∃ z, Z = ' ' :: z) :
    wordsAux [] (n.data ++ Z) = n :: wordsAux [] Z := by
  rw [wordsAux_nospace n.data hns [] Z]
  simp only [List.nil_append]
  rcases hZ with rfl | ⟨z, rfl⟩
  · simp [wordsAux, hne]
  · simp [wordsAux, hne]

/-- A reprojected selection list is empty or begins with a space. -/
theorem render_shape (s : Sels) :
    (GetSubQuery s).data = [] ∨ ∃ z, (GetSubQuery s).data = ' ' :: z := by
  cases s with
  | nil => left; rfl
  | leaf n r =>
      right
      refine ⟨n.data ++ (GetSubQuery r).data, ?_⟩
      show ((" " ++ n ++ GetSubQuery r)).data = _
      rw [strData_append, strData_append]
      rfl
  | node n subs r =>
      right
      refine ⟨(n ++ " \x7b " ++ GetSubQuery subs ++ " \x7d " ++ GetSubQuery r).data, ?_⟩
      show (" " ++ n ++ " \x7b " ++ GetSubQuery subs ++ " \x7d " ++ GetSubQuery r).data = _
      rw [show " " ++ n ++ " \x7b " ++ GetSubQuery subs ++ " \x7d " ++ GetSubQuery r
            = " " ++ (n ++ " \x7b " ++ GetSubQuery subs ++ " \x7d " ++ GetSubQuery r) by
          simp [String.append_assoc]]
      rw [strData_append]
      rfl

/-- Unpacking the boolean well-formedness of a field name. -/
theorem wfName_spec (n : String) (h : wfName n = true) :
    n.data ≠ [] ∧ (∀ c ∈ n.data, ¬(c = ' ')) ∧ n ≠ "\x7b" ∧ n ≠ "\x7d" := by
  simp only [wfName, Bool.and_eq_true, Bool.not_eq_true', List.all_eq_true,
    decide_eq_false_iff_not, decide_eq_true_eq] at h
  obtain ⟨⟨⟨h1, h2⟩, h3⟩, h4⟩ := h
  refine ⟨?_, ?_, h3, h4⟩
  · cases hd : n.data <;> simp_all [List.isEmpty]
  · intro c hc
    simpa using h2 c hc

/-- Tokenizing a reprojected selection list yields exactly its token stream. -/
theorem words_render (s : Sels) : wfSels s = true →
    ∀ tail : List Char, (tail = [] ∨ ∃ z, tail = ' ' :: z) →
    wordsAux [] ((GetSubQuery s).data ++ tail) = tokList s ++ wordsAux [] tail := by
  induction s with
  | nil =>
      intro _ tail _
      simp [GetSubQuery, tokList]
  | leaf n r ih =>
      intro hwf tail htail
      obtain ⟨hn, hr⟩ : wfName n = true ∧ wfSels r = true := by
        simpa [wfSels, Bool.and_eq_true] using hwf
      obtain ⟨hne, hns, -, -⟩ := wfName_spec n hn
      have hZ : (GetSubQuery r).data ++ tail = [] ∨
          ∃ z, (GetSubQuery r).data ++ tail = ' ' :: z := by
        rcases render_shape r with h0 | ⟨z, hz⟩
        · rw [h0]; simpa using htail
        · exact Or.inr ⟨z ++ tail, by rw [hz]; rfl⟩
      show wordsAux [] ((" " ++ n ++ GetSubQuery r).data ++ tail) = _
      rw [strData_append, strData_append, List.append_assoc, List.append_assoc,
        words_space_chunk, flush_word n hne hns _ hZ, ih hr tail htail]
      simp [tokList]
  | node n subs r ihs ihr =>
      intro hwf tail htail
      obtain ⟨hn, hsubs, hr⟩ : wfName n = true ∧ wfSels subs = true ∧ wfSels r = true := by
        simpa [wfSels, Bool.and_eq_true, and_assoc] using hwf
      obtain ⟨hne, hns, -, -⟩ := wfName_spec n hn
      show wordsAux []
          ((" " ++ n ++ " \x7b " ++ GetSubQuery subs ++ " \x7d " ++ GetSubQuery r).data ++ tail)
          = _
      rw [strData_append, strData_append, strData_append, strData_append, strData_append]
      rw [List.append_assoc, List.append_assoc, List.append_assoc, List.append_assoc,
        List.append_assoc]
      rw [words_space_chunk]
      rw [flush_word n hne hns _ (Or.inr ⟨_, by rw [lbracePad_cons]; rfl⟩)]
      rw [words_lbrace_chunk]
      rw [ihs hsubs _ (Or.inr ⟨_, by rw [rbracePad_cons]; rfl⟩)]
      rw [words_rbrace_chunk]
      rw [ihr hr tail htail]
      simp [tokList]


/-- The parser needs at least one step for any selection list. -/
theorem pfuel_pos (s : Sels) : 1 ≤ pfuel s := by
  cases s with
  | nil => simp [pfuel]
  | leaf n r => simp only [pfuel]; omega
  | node n subs r => simp only [pfuel]; omega

/-- A token stream followed by a closing context never begins with an open brace. -/
theorem toks_head_not_lbrace (r : Sels) (hwf : wfSels r = true) (rest : List String)
    (hrest : rest = [] ∨ ∃ q, rest = "\x7d" :: q) :
    ¬((tokList r ++ rest).head? = some "\x7b") := by
  cases r with
  | nil =>
      rcases hrest with rfl | ⟨q, rfl⟩ <;> simp [tokList]
  | leaf n r =>
      obtain ⟨hn, -⟩ : wfName n = true ∧ wfSels r = true := by
        simpa [wfSels, Bool.and_eq_true] using hwf
      obtain ⟨-, -, hlb, -⟩ := wfName_spec n hn
      simp [tokList, hlb]
  | node n subs r =>
      obtain ⟨hn, -, -⟩ : wfName n = true ∧ wfSels subs = true ∧ wfSels r = true := by
        simpa [wfSels, Bool.and_eq_true, and_assoc] using hwf
      obtain ⟨-, -, hlb, -⟩ := wfName_spec n hn
      simp [tokList, hlb]

/-- The parser, given enough fuel, consumes exactly the token stream of a
well-formed selection list and reconstructs it, leaving the closing
context untouched. -/
theorem parse_toks (s : Sels) : wfSels s = true →
    ∀ fuel : Nat, pfuel s ≤ fuel →
    ∀ rest : List String, (rest = [] ∨ ∃ q, rest = "\x7d" :: q) →
    parseFields fuel (tokList s ++ rest) = some (s, rest) := by
  induction s with
  | nil =>
      intro _ fuel hfuel rest hrest
      obtain ⟨m, rfl⟩ : ∃ m, fuel = m + 1 := by
        cases fuel with
        | zero => simp [pfuel] at hfuel
        | succ m => exact ⟨m, rfl⟩
      rcases hrest with rfl | ⟨q, rfl⟩ <;> simp [tokList, parseFields]
  | leaf n r ih =>
      intro hwf fuel hfuel rest hrest
      obtain ⟨hn, hr⟩ : wfName n = true ∧ wfSels r = true := by
        simpa [wfSels, Bool.and_eq_true] using hwf
      obtain ⟨-, -, -, hrb⟩ := wfName_spec n hn
      obtain ⟨m, rfl⟩ : ∃ m, fuel = m + 1 := by
        cases fuel with
        | zero => simp [pfuel] at hfuel
        | succ m => exact ⟨m, rfl⟩
      have hm : pfuel r ≤ m := by simp [pfuel] at hfuel; omega
      have hhead := toks_head_not_lbrace r hr rest hrest
      show parseFields (m + 1) (n :: (tokList r ++ rest)) = _
      rw [parseFields, if_neg hrb, if_neg hhead, ih hr m hm rest hrest]
  | node n subs r ihs ihr =>
      intro hwf fuel hfuel rest hrest
      obtain ⟨hn, hsubs, hr⟩ : wfName n = true ∧ wfSels subs = true ∧ wfSels r = true := by
        simpa [wfSels, Bool.and_eq_true, and_assoc] using hwf
      obtain ⟨-, -, -, hrb⟩ := wfName_spec n hn
      obtain ⟨m, rfl⟩ : ∃ m, fuel = m + 1 := by
        cases fuel with
        | zero => simp [pfuel] at hfuel
        | succ m => exact ⟨m, rfl⟩
      have hms : pfuel subs ≤ m := by
        have := pfuel_pos r
        simp [pfuel] at hfuel
        omega
      have hmr : pfuel r ≤ m := by
        have := pfuel_pos subs
        simp [pfuel] at hfuel
        omega
      show parseFields (m + 1)
          (n :: "\x7b" :: ((tokList subs ++ "\x7d" :: tokList r) ++ rest)) = _
      rw [parseFields, if_neg hrb]
      have hsplit : (tokList subs ++ "\x7d" :: tokList r) ++ rest
          = tokList subs ++ ("\x7d" :: (tokList r ++ rest)) := by
        simp
      rw [hsplit]
      simp only [List.head?_cons, Option.some.injEq, if_pos rfl, List.tail_cons]
      rw [ihs hsubs m hms ("\x7d" :: (tokList r ++ rest)) (Or.inr ⟨_, rfl⟩)]
      simp only [List.head?_cons, Option.some.injEq, if_pos rfl, List.tail_cons]
      rw [ihr hr m hmr rest hrest]
      simp

/-- The parser step bound is at most the token count plus one. -/
theorem pfuel_le_tokens (s : Sels) : pfuel s ≤ (tokList s).length + 1 := by
  induction s with
  | nil => simp [pfuel, tokList]
  | leaf n r ih => simp [pfuel, tokList]; omega
  | node n subs r ihs ihr => simp [pfuel, tokList]; omega

/-- Round trip: re-parsing a reprojected well-formed selection list
reconstructs it exactly. -/
theorem reparse_render (s : Sels) (hwf : wfSels s = true) :
    reparse (GetSubQuery s) = some s := by
  have htok : gqlWords (GetSubQuery s) = tokList s := by
    have h := words_render s hwf [] (Or.inl rfl)
    simpa [gqlWords, wordsAux] using h
  have hp := parse_toks s hwf ((tokList s).length + 1)
    (by have := pfuel_le_tokens s; omega) [] (Or.inl rfl)
  rw [List.append_nil] at hp
  unfold reparse
  rw [htok, hp]

/--
Model of `models.SingleRef` (the `models` package is outside the provided
source; the field shapes follow the spec §3 Reference: a kind tag, a
target identifier, and a declared origin location).  `type` mirrors
`cref.Type`, `nrDollarCref` mirrors `cref.NrDollarCref`, `locationURL`
mirrors the string the source reads as `*cref.LocationURL`.
-/
structure SingleRef where
  type : String := ""
  nrDollarCref : String := ""
  locationURL : String := ""
deriving DecidableEq

/-- Model of `models.KeyTokenGetResponse` (fields the source reads; the
Go zero value is the default). -/
structure KeyTokenGetResponse where
  keyID : String := ""
  token : String := ""
  email : String := ""
  ipOrigin : List String := []
  keyExpiresUnix : Int := 0
  read : Bool := false
  execute : Bool := false
  write : Bool := false
  delete : Bool := false
  parent : SingleRef := {}
deriving DecidableEq

/-- Model of `models.ThingGetResponse` (fields the source reads). -/
structure ThingGetResponse where
  atContext : String := ""
  atClass : String := ""
  creationTimeUnix : Int := 0
  lastUpdateTimeUnix : Int := 0
  thingID : String := ""
  key : SingleRef := {}
deriving DecidableEq

/-- Model of `models.ObjectSubject`: the two Thing references of an Action. -/
structure ObjectSubject where
  object : SingleRef := {}
  subject : SingleRef := {}
deriving DecidableEq

/-- Model of `models.ActionGetResponse` (fields the source reads; the
`Schema` map is never read by this layer and is omitted). -/
structure ActionGetResponse where
  atContext : String := ""
  atClass : String := ""
  creationTimeUnix : Int := 0
  lastUpdateTimeUnix : Int := 0
  actionID : String := ""
  things : ObjectSubject := {}
  key : SingleRef := {}
deriving DecidableEq

/-- One fetch-by-identifier operation of the Connector Interface. -/
inductive ConnectorCall where
  | getThing (id : String)
  | getAction (id : String)
  | getKey (id : String)
deriving DecidableEq

/--
Model of `dbconnector.DatabaseConnector` as the resolution engine uses
it: each operation receives the identifier and the response value the
caller passes by pointer, and yields the (possibly partially) populated
response together with the error (`none` for a nil error).
-/
structure DatabaseConnector where
  getThing : String → ThingGetResponse → ThingGetResponse × Option String
  getAction : String → ActionGetResponse → ActionGetResponse × Option String
  getKey : String → KeyTokenGetResponse → KeyTokenGetResponse × Option String

/-- Model of `config.WeaviateConfig`: only the configured host address is
read by this layer (via `GetHostAddress`). -/
structure WeaviateConfig where
  hostAddress : String := ""

/-- Embedding of `serverConfig.GetHostAddress()`. -/
def WeaviateConfig.getHostAddress (c : WeaviateConfig) : String :=
  c.hostAddress

/-- Minimal model of the external `graphql.Schema` value stored by
`InitSchema`; its contents are never inspected by the source functions
verified here. -/
structure GraphqlSchemaValue where
  queryTypeName : String := ""
deriving DecidableEq

/-- Model of the `GraphQLSchema` struct (source lines 36-40). -/
structure GraphQLSchema where
  weaviateGraphQLSchema : GraphqlSchemaValue
  serverConfig : WeaviateConfig
  dbConnector : DatabaseConnector

/-- A Go pointer: either nil or the address of a value.  Taking the
address of an addressable expression (`&x`) always yields a non-nil
pointer. -/
inductive GoPtr (α : Type) where
  | null : GoPtr α
  | addr (a : α) : GoPtr α

/-- Embedding of the Go comparison `p == nil` on a pointer. -/
def GoPtr.isNil {α : Type} : GoPtr α → Bool
  | .null => true
  | .addr _ => false

/--
Embedding of `GetGraphQLSchema` (source lines 54-61).  The Go guard is
`&f.weaviateGraphQLSchema == nil`: the address of a struct field.  On a
nil check it returns an empty schema and an error; otherwise the stored
schema and a nil error.
-/
def GetGraphQLSchema (f : GraphQLSchema) : GraphqlSchemaValue × Option String :=
  if (GoPtr.addr f.weaviateGraphQLSchema).isNil then
    ({}, some "schema is not initialized, perhaps you forget to run \x27InitSchema\x27")
  else
    (f.weaviateGraphQLSchema, none)

/-- Outcome of the Federation Policy Gate. -/
inductive GateResult where
  | allowed : GateResult
  | denied (reason : String) : GateResult
deriving DecidableEq

/-- The fixed denial reason of the federation gate (source line 622). -/
def licenseMsg : String :=
  "a license for connection to another Weaviate-instance is required in order to resolve this query further"

/--
The Federation Policy Gate: the origin comparison at source line 620.
Denies with the fixed license message unless the declared origin equals
this node's configured own address.
-/
def federationGate (ownAddress origin : String) : GateResult :=
  if ownAddress ≠ origin then .denied licenseMsg else .allowed

/-- The dynamic type of the `objectLoaded interface\x7b\x7d` out-parameter
of `resolveCrossRef`, together with its current value. -/
inductive LoadedObject where
  | thing (t : ThingGetResponse)
  | action (a : ActionGetResponse)
  | key (k : KeyTokenGetResponse)
deriving DecidableEq

/-- Model of the `gqlerrors.NewError` value built at source lines 638-645:
the message, the nodes derived from the field ASTs, and the stack (set to
`err.Error()`). -/
structure GQLError where
  message : String
  nodes : Sels
  stack : String
deriving DecidableEq

/-- A Go `error` value as observed by this layer: either a plain error
carrying a message or a wrapped GraphQL error. -/
inductive GoError where
  | plain (msg : String)
  | gql (e : GQLError)
deriving DecidableEq

/--
The observable result of one `resolveCrossRef` run: the connector fetches
performed (in order), the out-parameter after the run, whether a failed
type assertion panicked, the returned error, and the sub-query string
built by invoking `GetSubQuery` (the source contains no such invocation,
so the embedding never sets it).
-/
structure CrossRefResult where
  calls : List ConnectorCall
  loaded : LoadedObject
  panicked : Bool
  errOut : Option GQLError
  subQueryBuilt : Option String
deriving DecidableEq

/--
Embedding of `resolveCrossRef` (source lines 617-649).  Step order as in
the Go code: first the origin comparison against the configured host
address (the federation gate); on the local path a three-way dispatch on
`cref.Type` to the matching connector operation (the type assertion on
the out-parameter panics when its dynamic type does not match the kind
tag); any other kind tag produces the schema-inconsistency error.  A
non-nil error is wrapped as a GraphQL error attached to `fields` with the
stack set to the error message.
-/
def resolveCrossRef (f : GraphQLSchema) (fields : Sels) (cref : SingleRef)
    (objectLoaded : LoadedObject) : CrossRefResult :=
  let wrap : Option String → Option GQLError :=
    fun e => e.map fun m => { message := m, nodes := fields, stack := m }
  match federationGate f.serverConfig.getHostAddress cref.locationURL with
  | .denied reason =>
      { calls := [], loaded := objectLoaded, panicked := false,
        errOut := wrap (some reason), subQueryBuilt := none }
  | .allowed =>
      if cref.type = "Thing" then
        match objectLoaded with
        | .thing t =>
            let r := f.dbConnector.getThing cref.nrDollarCref t
            { calls := [.getThing cref.nrDollarCref], loaded := .thing r.1,
              panicked := false, errOut := wrap r.2, subQueryBuilt := none }
        | _ =>
            { calls := [], loaded := objectLoaded, panicked := true,
              errOut := none, subQueryBuilt := none }
      else if cref.type = "Action" then
        match objectLoaded with
        | .action a =>
            let r := f.dbConnector.getAction cref.nrDollarCref a
            { calls := [.getAction cref.nrDollarCref], loaded := .action r.1,
              panicked := false, errOut := wrap r.2, subQueryBuilt := none }
        | _ =>
            { calls := [], loaded := objectLoaded, panicked := true,
              errOut := none, subQueryBuilt := none }
      else if cref.type = "Key" then
        match objectLoaded with
        | .key k =>
            let r := f.dbConnector.getKey cref.nrDollarCref k
            { calls := [.getKey cref.nrDollarCref], loaded := .key r.1,
              panicked := false, errOut := wrap r.2, subQueryBuilt := none }
        | _ =>
            { calls := [], loaded := objectLoaded, panicked := true,
              errOut := none, subQueryBuilt := none }
      else
        { calls := [], loaded := objectLoaded, panicked := false,
          errOut := wrap (some ("can\x27t resolve the given type \x27"
            ++ cref.type ++ "\x27")), subQueryBuilt := none }

/-- A GraphQL field value as produced by the resolvers (the Go functions
return `interface\x7b\x7d`; a nil interface is `none` at the resolver
output). -/
inductive GQLValue where
  | str (s : String)
  | num (x : Int)
  | bool (b : Bool)
  | strList (xs : List String)
  | keyResp (k : KeyTokenGetResponse)
  | thingResp (t : ThingGetResponse)
  | actionResp (a : ActionGetResponse)
  | objSub (o : ObjectSubject)
deriving DecidableEq

/-- The dynamic type of `p.Source` as a resolver sees it: one of the
response types the schema passes between resolvers, or anything else. -/
inductive SourceValue where
  | keyResp (k : KeyTokenGetResponse)
  | thingResp (t : ThingGetResponse)
  | actionResp (a : ActionGetResponse)
  | objSubPtr (o : ObjectSubject)
  | other
deriving DecidableEq

/-- The observable result of one resolver invocation: the returned value
(`none` for a nil interface), the returned error, the connector fetches
performed, and whether the invocation panicked. -/
structure ResolverOut where
  value : Option GQLValue
  err : Option GoError
  calls : List ConnectorCall := []
  panicked : Bool := false
deriving DecidableEq

/-- Projection of the out-parameter back to a key response (the call
sites that pass a key response always get a key response back). -/
def loadedKeyValue : LoadedObject → KeyTokenGetResponse
  | .key k => k
  | _ => {}

/-- Projection of the out-parameter back to a thing response. -/
def loadedThingValue : LoadedObject → ThingGetResponse
  | .thing t => t
  | _ => {}

/-- Resolver of `Key.uuid` (source lines 128-138). -/
def keyUuidResolve : SourceValue → ResolverOut
  | .keyResp k => { value := some (.str k.keyID), err := none }
  | _ => { value := none, err := none }

/-- Resolver of `Key.token` (source lines 139-149). -/
def keyTokenResolve : SourceValue → ResolverOut
  | .keyResp k => { value := some (.str k.token), err := none }
  | _ => { value := none, err := none }

/-- Resolver of `Key.email` (source lines 150-160). -/
def keyEmailResolve : SourceValue → ResolverOut
  | .keyResp k => { value := some (.str k.email), err := none }
  | _ => { value := none, err := none }

/-- Resolver of `Key.ipOrigin` (source lines 161-171). -/
def keyIPOriginResolve : SourceValue → ResolverOut
  | .keyResp k => { value := some (.strList k.ipOrigin), err := none }
  | _ => { value := none, err := none }

/-- Resolver of `Key.keyExpiresUnix` (source lines 172-182). -/
def keyExpiresResolve : SourceValue → ResolverOut
  | .keyResp k => { value := some (.num k.keyExpiresUnix), err := none }
  | _ => { value := none, err := none }

/-- Resolver of `Key.read` (source lines 183-193). -/
def keyReadResolve : SourceValue → ResolverOut
  | .keyResp k => { value := some (.bool k.read), err := none }
  | _ => { value := none, err := none }

/-- Resolver of `Key.execute` (source lines 194-204). -/
def keyExecuteResolve : SourceValue → ResolverOut
  | .keyResp k => { value := some (.bool k.execute), err := none }
  | _ => { value := none, err := none }

/-- Resolver of `Key.write` (source lines 205-215). -/
def keyWriteResolve : SourceValue → ResolverOut
  | .keyResp k => { value := some (.bool k.write), err := none }
  | _ => { value := none, err := none }

/-- Resolver of `Key.delete` (source lines 216-226). -/
def keyDeleteResolve : SourceValue → ResolverOut
  | .keyResp k => { value := some (.bool k.delete), err := none }
  | _ => { value := none, err := none }

/-- Resolver of `Key.parent` (source lines 241-255): starts from an empty
key response and resolves the parent cross reference into it; on a
mistyped source it returns the empty response with a nil error. -/
def keyParentResolve (f : GraphQLSchema) (fieldASTs : Sels) : SourceValue → ResolverOut
  | .keyResp key =>
      let r := resolveCrossRef f fieldASTs key.parent (.key {})
      { value := some (.keyResp (loadedKeyValue r.loaded)),
        err := r.errOut.map .gql, calls := r.calls, panicked := r.panicked }
  | _ => { value := some (.keyResp {}), err := none }

/-- Resolver of `Thing.atContext` (source lines 262-272). -/
def thingAtContextResolve : SourceValue → ResolverOut
  | .thingResp t => { value := some (.str t.atContext), err := none }
  | _ => { value := none, err := none }

/-- Resolver of `Thing.atClass` (source lines 273-283). -/
def thingAtClassResolve : SourceValue → ResolverOut
  | .thingResp t => { value := some (.str t.atClass), err := none }
  | _ => { value := none, err := none }

/-- Resolver of `Thing.creationTimeUnix` (source lines 284-294). -/
def thingCreationResolve : SourceValue → ResolverOut
  | .thingResp t => { value := some (.num t.creationTimeUnix), err := none }
  | _ => { value := none, err := none }

/-- Resolver of `Thing.lastUpdateTimeUnix` (source lines 295-305). -/
def thingLastUpdateResolve : SourceValue → ResolverOut
  | .thingResp t => { value := some (.num t.lastUpdateTimeUnix), err := none }
  | _ => { value := none, err := none }

/-- Resolver of `Thing.uuid` (source lines 306-316). -/
def thingUuidResolve : SourceValue → ResolverOut
  | .thingResp t => { value := some (.str t.thingID), err := none }
  | _ => { value := none, err := none }

/-- Resolver of `Thing.key` (source lines 317-331). -/
def thingKeyResolve (f : GraphQLSchema) (fieldASTs : Sels) : SourceValue → ResolverOut
  | .thingResp thing =>
      let r := resolveCrossRef f fieldASTs thing.key (.key {})
      { value := some (.keyResp (loadedKeyValue r.loaded)),
        err := r.errOut.map .gql, calls := r.calls, panicked := r.panicked }
  | _ => { value := some (.keyResp {}), err := none }

/-- Resolver of `ObjectSubject.object` (source lines 345-360). -/
def objectSubjectObjectResolve (f : GraphQLSchema) (fieldASTs : Sels) :
    SourceValue → ResolverOut
  | .objSubPtr ref =>
      let r := resolveCrossRef f fieldASTs ref.object (.thing {})
      { value := some (.thingResp (loadedThingValue r.loaded)),
        err := r.errOut.map .gql, calls := r.calls, panicked := r.panicked }
  | _ => { value := some (.thingResp {}), err := none }

/-- Resolver of `ObjectSubject.subject` (source lines 361-375). -/
def objectSubjectSubjectResolve (f : GraphQLSchema) (fieldASTs : Sels) :
    SourceValue → ResolverOut
  | .objSubPtr ref =>
      let r := resolveCrossRef f fieldASTs ref.subject (.thing {})
      { value := some (.thingResp (loadedThingValue r.loaded)),
        err := r.errOut.map .gql, calls := r.calls, panicked := r.panicked }
  | _ => { value := some (.thingResp {}), err := none }

/-- Resolver of `Action.atContext` (source lines 384-394). -/
def actionAtContextResolve : SourceValue → ResolverOut
  | .actionResp a => { value := some (.str a.atContext), err := none }
  | _ => { value := none, err := none }

/-- Resolver of `Action.atClass` (source lines 395-405). -/
def actionAtClassResolve : SourceValue → ResolverOut
  | .actionResp a => { value := some (.str a.atClass), err := none }
  | _ => { value := none, err := none }

/-- Resolver of `Action.creationTimeUnix` (source lines 406-416). -/
def actionCreationResolve : SourceValue → ResolverOut
  | .actionResp a => { value := some (.num a.creationTimeUnix), err := none }
  | _ => { value := none, err := none }

/-- Resolver of `Action.lastUpdateTimeUnix` (source lines 417-427). -/
def actionLastUpdateResolve : SourceValue → ResolverOut
  | .actionResp a => { value := some (.num a.lastUpdateTimeUnix), err := none }
  | _ => { value := none, err := none }

/-- Resolver of `Action.uuid` (source lines 428-438). -/
def actionUuidResolve : SourceValue → ResolverOut
  | .actionResp a => { value := some (.str a.actionID), err := none }
  | _ => { value := none, err := none }

/-- Resolver of `Action.things` (source lines 439-449). -/
def actionThingsResolve : SourceValue → ResolverOut
  | .actionResp a => { value := some (.objSub a.things), err := none }
  | _ => { value := none, err := none }

/-- Resolver of `Action.key` (source lines 450-464). -/
def actionKeyResolve (f : GraphQLSchema) (fieldASTs : Sels) : SourceValue → ResolverOut
  | .actionResp action =>
      let r := resolveCrossRef f fieldASTs action.key (.key {})
      { value := some (.keyResp (loadedKeyValue r.loaded)),
        err := r.errOut.map .gql, calls := r.calls, panicked := r.panicked }
  | _ => { value := some (.keyResp {}), err := none }

/-- Resolver of the query root `thing` entry point (source lines
478-500): one `GetThing` fetch into a fresh response; the response and
the connector error are both returned. -/
def queryThingResolve (f : GraphQLSchema) (idArg : String) : ResolverOut :=
  let r := f.dbConnector.getThing idArg {}
  { value := some (.thingResp r.1), err := r.2.map .plain,
    calls := [.getThing idArg] }

/-- Resolver of the query root `action` entry point (source lines
502-526): the fresh response gets an empty `Things` composite before one
`GetAction` fetch; the response and the connector error are both
returned. -/
def queryActionResolve (f : GraphQLSchema) (idArg : String) : ResolverOut :=
  let r := f.dbConnector.getAction idArg {}
  { value := some (.actionResp r.1), err := r.2.map .plain,
    calls := [.getAction idArg] }

/-- Resolver of the query root `key` entry point (source lines 528-550):
one `GetKey` fetch into a fresh response; the response and the connector
error are both returned. -/
def queryKeyResolve (f : GraphQLSchema) (idArg : String) : ResolverOut :=
  let r := f.dbConnector.getKey idArg {}
  { value := some (.keyResp r.1), err := r.2.map .plain,
    calls := [.getKey idArg] }


/-- Whether the kind tag is one of the three recognized tags and the
out-parameter's dynamic type matches it (the configuration at every
call site of `resolveCrossRef` when the stored reference is well formed). -/
def recognizedKindTarget (ct : String) (obj : LoadedObject) : Bool :=
  match obj with
  | .thing _ => ct = "Thing"
  | .action _ => ct = "Action"
  | .key _ => ct = "Key"

/-- A connector whose fetches succeed without touching the response. -/
def trivialConnector : DatabaseConnector where
  getThing := fun _ t => (t, none)
  getAction := fun _ a => (a, none)
  getKey := fun _ k => (k, none)

/-- A schema instance configured with the own address "local-node". -/
def localSchema : GraphQLSchema where
  weaviateGraphQLSchema := {}
  serverConfig := { hostAddress := "local-node" }
  dbConnector := trivialConnector

/-- The selection of Scenario D: uuid and key, the key with uuid and token. -/
def scenarioDTree : Sels :=
  .leaf "uuid" (.node "key" (.leaf "uuid" (.leaf "token" .nil)) .nil)

/-- Whether the source value is a key response. -/
def isKeySource : SourceValue → Bool
  | .keyResp _ => true
  | _ => false

/-- Whether the source value is a thing response. -/
def isThingSource : SourceValue → Bool
  | .thingResp _ => true
  | _ => false

/-- Whether the source value is an action response. -/
def isActionSource : SourceValue → Bool
  | .actionResp _ => true
  | _ => false

/-- Whether the source value is an object-subject composite. -/
def isObjSubSource : SourceValue → Bool
  | .objSubPtr _ => true
  | _ => false

/-- C1: a reference whose declared origin equals this node's configured
own address passes the federation gate as Allowed and (for a recognized
kind with a matching out-parameter) the connector fetch proceeds; any
other origin fails with the authorization error carrying the fixed
license reason, attached to the selection nodes, with no connector fetch
performed. -/
theorem c1_federation_gate_resolution (f : GraphQLSchema) (fields : Sels)
    (cref : SingleRef) (obj : LoadedObject) :
    (cref.locationURL = f.serverConfig.getHostAddress →
      federationGate f.serverConfig.getHostAddress cref.locationURL = .allowed) ∧
    (cref.locationURL = f.serverConfig.getHostAddress →
      recognizedKindTarget cref.type obj = true →
      (resolveCrossRef f fields cref obj).calls ≠ []) ∧
    (cref.locationURL ≠ f.serverConfig.getHostAddress →
      (resolveCrossRef f fields cref obj).calls = [] ∧
      (resolveCrossRef f fields cref obj).errOut =
        some { message := licenseMsg, nodes := fields, stack := licenseMsg }) := by
  refine ⟨?_, ?_, ?_⟩
  · intro h
    simp [federationGate, h]
  · intro h hk
    cases obj <;>
      simp only [recognizedKindTarget, decide_eq_true_eq] at hk <;>
      simp [resolveCrossRef, federationGate, h, hk]
  · intro h
    have h' : f.serverConfig.getHostAddress ≠ cref.locationURL := fun e => h e.symm
    simp [resolveCrossRef, federationGate, h']

/-- C1 witness: the gate and both branches at concrete inputs. -/
theorem c1_witness :
    federationGate localSchema.serverConfig.getHostAddress "local-node" = .allowed ∧
    (resolveCrossRef localSchema .nil ⟨"Key", "k1", "local-node"⟩ (.key {})).calls ≠ [] ∧
    ((resolveCrossRef localSchema .nil ⟨"Key", "k1", "remote"⟩ (.key {})).calls = [] ∧
      (resolveCrossRef localSchema .nil ⟨"Key", "k1", "remote"⟩ (.key {})).errOut =
        some { message := licenseMsg, nodes := .nil, stack := licenseMsg }) :=
  ⟨(c1_federation_gate_resolution localSchema .nil ⟨"Key", "k1", "local-node"⟩ (.key {})).1 rfl,
   (c1_federation_gate_resolution localSchema .nil ⟨"Key", "k1", "local-node"⟩
      (.key {})).2.1 rfl (by decide),
   (c1_federation_gate_resolution localSchema .nil ⟨"Key", "k1", "remote"⟩
      (.key {})).2.2 (by decide)⟩

/-- C2: a local-origin reference with kind tag Thing, Action, or Key is
dispatched to exactly the matching connector operation with the
reference's identifier, and to no other. -/
theorem c2_kind_dispatch (f : GraphQLSchema) (fields : Sels) (id : String)
    (t : ThingGetResponse) (a : ActionGetResponse) (k : KeyTokenGetResponse) :
    (resolveCrossRef f fields ⟨"Thing", id, f.serverConfig.getHostAddress⟩
        (.thing t)).calls = [.getThing id] ∧
    (resolveCrossRef f fields ⟨"Action", id, f.serverConfig.getHostAddress⟩
        (.action a)).calls = [.getAction id] ∧
    (resolveCrossRef f fields ⟨"Key", id, f.serverConfig.getHostAddress⟩
        (.key k)).calls = [.getKey id] := by
  refine ⟨?_, ?_, ?_⟩ <;> simp [resolveCrossRef, federationGate]

/-- C3: reprojection renders the field names of a well-formed selection
subtree in depth-first, left-to-right order with brace-delimited blocks
for nested selections (its token stream is exactly `tokList`), and on the
Scenario D selection it produces " uuid key \x7b  uuid token \x7d ",
token-equal to the expected string. -/
theorem c3_reprojection_order :
    (∀ s : Sels, wfSels s = true → gqlWords (GetSubQuery s) = tokList s) ∧
    GetSubQuery scenarioDTree = " uuid key \x7b  uuid token \x7d " ∧
    gqlWords (GetSubQuery scenarioDTree) = gqlWords " uuid key \x7b uuid token \x7d " := by
  refine ⟨?_, rfl, rfl⟩
  intro s hwf
  have h := words_render s hwf [] (Or.inl rfl)
  simpa [gqlWords, wordsAux] using h

/-- C3 witness: the token rendering at the Scenario D selection. -/
theorem c3_witness :
    wfSels scenarioDTree = true ∧
    gqlWords (GetSubQuery scenarioDTree) = tokList scenarioDTree :=
  ⟨by decide, c3_reprojection_order.1 scenarioDTree (by decide)⟩

/-- C4: re-parsing the reprojection of any well-formed selection subtree
yields a structurally equal subtree (same names, nesting, order). -/
theorem c4_reprojection_roundtrip (s : Sels) (hwf : wfSels s = true) :
    reparse (GetSubQuery s) = some s :=
  reparse_render s hwf

/-- C4 witness: the round trip at the Scenario D selection. -/
theorem c4_witness :
    wfSels scenarioDTree = true ∧ reparse (GetSubQuery scenarioDTree) = some scenarioDTree :=
  ⟨by decide, c4_reprojection_roundtrip scenarioDTree (by decide)⟩

/-- C5: the federation gate is total: for every reference and every
configured address it is Allowed exactly on an origin equal to the own
address and Denied with the fixed reason otherwise; no third outcome. -/
theorem c5_gate_totality (cref : SingleRef) (own : String) :
    (cref.locationURL = own ∧ federationGate own cref.locationURL = .allowed) ∨
    (cref.locationURL ≠ own ∧ federationGate own cref.locationURL = .denied licenseMsg) := by
  by_cases h : cref.locationURL = own
  · exact Or.inl ⟨h, by simp [federationGate, h]⟩
  · exact Or.inr ⟨h, by simp [federationGate, Ne.symm h]⟩

/-- C6: a local-origin reference with an unrecognized kind tag fails with
the schema-inconsistency error naming the kind, performs no connector
fetch, and does not panic. -/
theorem c6_unrecognized_kind (f : GraphQLSchema) (fields : Sels) (cref : SingleRef)
    (obj : LoadedObject) (horigin : cref.locationURL = f.serverConfig.getHostAddress)
    (h1 : cref.type ≠ "Thing") (h2 : cref.type ≠ "Action") (h3 : cref.type ≠ "Key") :
    (resolveCrossRef f fields cref obj).calls = [] ∧
    (resolveCrossRef f fields cref obj).panicked = false ∧
    (resolveCrossRef f fields cref obj).errOut =
      some { message := "can\x27t resolve the given type \x27" ++ cref.type ++ "\x27",
             nodes := fields,
             stack := "can\x27t resolve the given type \x27" ++ cref.type ++ "\x27" } := by
  simp [resolveCrossRef, federationGate, horigin, h1, h2, h3]

/-- C6 witness: the schema-inconsistency failure at a concrete bogus kind. -/
theorem c6_witness :
    (resolveCrossRef localSchema .nil ⟨"Bogus", "i1", "local-node"⟩ (.key {})).calls = [] ∧
    (resolveCrossRef localSchema .nil ⟨"Bogus", "i1", "local-node"⟩ (.key {})).panicked
      = false ∧
    (resolveCrossRef localSchema .nil ⟨"Bogus", "i1", "local-node"⟩ (.key {})).errOut =
      some { message := "can\x27t resolve the given type \x27Bogus\x27",
             nodes := .nil,
             stack := "can\x27t resolve the given type \x27Bogus\x27" } :=
  c6_unrecognized_kind localSchema .nil ⟨"Bogus", "i1", "local-node"⟩ (.key {})
    rfl (by decide) (by decide) (by decide)

/-- C7 counterexample: a concrete cross-reference resolution builds no
sub-query reprojection string (`GetSubQuery` has no call site in
`resolveCrossRef`), contradicting the claim that every resolution
invokes it. -/
theorem c7_counterexample :
    (resolveCrossRef localSchema (Sels.leaf "uuid" .nil) ⟨"Key", "k1", "local-node"⟩
      (.key {})).subQueryBuilt = none := rfl

/-- C7 amended: no cross-reference resolution invokes Sub-Query
Reprojection; `GetSubQuery` is defined but dead code in resolution. -/
theorem c7_no_reprojection_in_resolution (f : GraphQLSchema) (fields : Sels)
    (cref : SingleRef) (obj : LoadedObject) :
    (resolveCrossRef f fields cref obj).subQueryBuilt = none := by
  unfold resolveCrossRef
  cases federationGate f.serverConfig.getHostAddress cref.locationURL with
  | denied reason => rfl
  | allowed =>
      by_cases h1 : cref.type = "Thing"
      · cases obj <;> simp [h1]
      · by_cases h2 : cref.type = "Action"
        · cases obj <;> simp [h1, h2]
        · by_cases h3 : cref.type = "Key"
          · cases obj <;> simp [h1, h2, h3]
          · simp [h1, h2, h3]


/-- C8: every field resolver of the schema graph, invoked with a source
value of the wrong shape, returns an empty or null result together with a
nil error rather than failing: the plain field resolvers return a nil
interface and nil error, the cross-reference resolvers return the empty
response and nil error, with no connector fetch and no panic. -/
theorem c8_mistyped_source_defaults (f : GraphQLSchema) (fields : Sels)
    (src : SourceValue) :
    (isKeySource src = false →
      keyUuidResolve src = { value := none, err := none } ∧
      keyTokenResolve src = { value := none, err := none } ∧
      keyEmailResolve src = { value := none, err := none } ∧
      keyIPOriginResolve src = { value := none, err := none } ∧
      keyExpiresResolve src = { value := none, err := none } ∧
      keyReadResolve src = { value := none, err := none } ∧
      keyExecuteResolve src = { value := none, err := none } ∧
      keyWriteResolve src = { value := none, err := none } ∧
      keyDeleteResolve src = { value := none, err := none } ∧
      keyParentResolve f fields src = { value := some (.keyResp {}), err := none }) ∧
    (isThingSource src = false →
      thingAtContextResolve src = { value := none, err := none } ∧
      thingAtClassResolve src = { value := none, err := none } ∧
      thingCreationResolve src = { value := none, err := none } ∧
      thingLastUpdateResolve src = { value := none, err := none } ∧
      thingUuidResolve src = { value := none, err := none } ∧
      thingKeyResolve f fields src = { value := some (.keyResp {}), err := none }) ∧
    (isActionSource src = false →
      actionAtContextResolve src = { value := none, err := none } ∧
      actionAtClassResolve src = { value := none, err := none } ∧
      actionCreationResolve src = { value := none, err := none } ∧
      actionLastUpdateResolve src = { value := none, err := none } ∧
      actionUuidResolve src = { value := none, err := none } ∧
      actionThingsResolve src = { value := none, err := none } ∧
      actionKeyResolve f fields src = { value := some (.keyResp {}), err := none }) ∧
    (isObjSubSource src = false →
      objectSubjectObjectResolve f fields src
        = { value := some (.thingResp {}), err := none } ∧
      objectSubjectSubjectResolve f fields src
        = { value := some (.thingResp {}), err := none }) := by
  refine ⟨?_, ?_, ?_, ?_⟩ <;> intro h <;> cases src <;>
    simp_all [isKeySource, isThingSource, isActionSource, isObjSubSource,
      keyUuidResolve, keyTokenResolve, keyEmailResolve, keyIPOriginResolve,
      keyExpiresResolve, keyReadResolve, keyExecuteResolve, keyWriteResolve,
      keyDeleteResolve, keyParentResolve, thingAtContextResolve,
      thingAtClassResolve, thingCreationResolve, thingLastUpdateResolve,
      thingUuidResolve, thingKeyResolve, actionAtContextResolve,
      actionAtClassResolve, actionCreationResolve, actionLastUpdateResolve,
      actionUuidResolve, actionThingsResolve, actionKeyResolve,
      objectSubjectObjectResolve, objectSubjectSubjectResolve]

/-- C8 witness: the defensive defaults at a concrete mistyped source. -/
theorem c8_witness :
    keyUuidResolve .other = { value := none, err := none } ∧
    keyParentResolve localSchema .nil .other
      = { value := some (.keyResp {}), err := none } ∧
    thingKeyResolve localSchema .nil .other
      = { value := some (.keyResp {}), err := none } ∧
    actionKeyResolve localSchema .nil .other
      = { value := some (.keyResp {}), err := none } ∧
    objectSubjectObjectResolve localSchema .nil .other
      = { value := some (.thingResp {}), err := none } :=
  ⟨((c8_mistyped_source_defaults localSchema .nil .other).1 rfl).1,
   ((c8_mistyped_source_defaults localSchema .nil .other).1
      rfl).2.2.2.2.2.2.2.2.2,
   ((c8_mistyped_source_defaults localSchema .nil .other).2.1 rfl).2.2.2.2.2,
   ((c8_mistyped_source_defaults localSchema .nil .other).2.2.1
      rfl).2.2.2.2.2.2,
   ((c8_mistyped_source_defaults localSchema .nil .other).2.2.2 rfl).1⟩

/-- C9: each query-root entry point performs exactly one connector fetch
of the matching kind with the given identifier and returns both the
fetched entity value (always present) and the connector's error. -/
theorem c9_query_roots (f : GraphQLSchema) (idArg : String) :
    queryThingResolve f idArg =
      { value := some (.thingResp (f.dbConnector.getThing idArg {}).1),
        err := (f.dbConnector.getThing idArg {}).2.map .plain,
        calls := [.getThing idArg], panicked := false } ∧
    queryActionResolve f idArg =
      { value := some (.actionResp (f.dbConnector.getAction idArg {}).1),
        err := (f.dbConnector.getAction idArg {}).2.map .plain,
        calls := [.getAction idArg], panicked := false } ∧
    queryKeyResolve f idArg =
      { value := some (.keyResp (f.dbConnector.getKey idArg {}).1),
        err := (f.dbConnector.getKey idArg {}).2.map .plain,
        calls := [.getKey idArg], panicked := false } ∧
    (queryThingResolve f idArg).value.isSome = true ∧
    (queryActionResolve f idArg).value.isSome = true ∧
    (queryKeyResolve f idArg).value.isSome = true :=
  ⟨rfl, rfl, rfl, rfl, rfl, rfl⟩

/-- C10: `GetGraphQLSchema` always returns the stored schema with a nil
error; its error branch guards on the address of a struct field being
nil, which never holds, so it is unreachable. -/
theorem c10_getSchema_error_branch_unreachable (f : GraphQLSchema) :
    (GoPtr.addr f.weaviateGraphQLSchema).isNil = false ∧
    GetGraphQLSchema f = (f.weaviateGraphQLSchema, none) := by
  refine ⟨rfl, ?_⟩
  simp [GetGraphQLSchema, GoPtr.isNil]

end Weaviate
